import Mathlib

/-!
Shallow embedding of `src/bittrex_bot.py` (kdmukai/bittrex_bot), a linear
command-line trading script.  Python `Decimal` values are modelled as exact
rationals (`ℚ`); the default `Decimal` context carries 28 significant digits,
which is exact for every operation the script performs on realistic exchange
data, so the rational model is faithful.  The three external services
(exchange REST API, SNS notification service, config file) are modelled as an
`Exchange` record of oracle data plus a trace of outgoing calls; standard
output (`print`) is not observable and is not traced.  The script either
terminates normally / via `exit()` (process status 0) or aborts on an uncaught
exception; `Outcome` captures this.
-/

namespace BittrexBot

/-- One entry of the exchange market listing; fields read at lines 87 to 88 of
the source (`MarketCurrency`, `BaseCurrency`, `MinTradeSize`). -/
structure MarketEntry where
  marketCurrency : String
  baseCurrency : String
  minTradeSize : ℚ
deriving DecidableEq

/-- One entry of the balances listing; fields read at lines 103 to 104
(`Currency`, `Balance`). -/
structure Balance where
  currency : String
  balance : ℚ
deriving DecidableEq

/-- One order-book entry (`quantity`, `Rate`); only `Rate` of the first entry
of each side is ever read (lines 130 to 131). -/
structure ObEntry where
  quantity : ℚ
  rate : ℚ
deriving DecidableEq

/-- The order book returned by `get_orderbook`: a `buy` list (bids) and a
`sell` list (asks), best first. -/
structure OrderBook where
  buy : List ObEntry
  sell : List ObEntry
deriving DecidableEq

/-- The exchange response to `sell_limit` (line 150): an explicit success
flag, a message, and the order identifier `result.uuid` when present.  The
shape follows the sample response quoted at line 149 of the source. -/
structure SellResp where
  success : Bool
  message : String
  uuid : Option String
deriving DecidableEq

/-- The exchange response to `get_order` (lines 167 and 187): the `Closed`
flag that is read at line 171, plus the full payload as rendered by `str`,
which is what line 176 sends in the timeout alert. -/
structure OrderResp where
  closed : Bool
  payload : String
deriving DecidableEq

/-- Oracle data for the external services consumed during one run.
`orders k` is the response of the `k`-th `get_order` call (the call at
line 167 is `k = 0`). -/
structure Exchange where
  markets : List MarketEntry
  balances : List Balance
  book : OrderBook
  sellResp : SellResp
  orders : Nat → OrderResp

/-- The command-line arguments (lines 21 to 45): `order_side` as typed by the
user, the parsed `amount`, both currencies, and `warn_after` (an `int`, so it
may be negative). -/
structure Args where
  order_side : String
  amount : ℚ
  market_currency : String
  base_currency : String
  warn_after : ℤ

/-- Outgoing service calls, in program order: the five Bittrex endpoints the
script uses plus `sns.publish`. -/
inductive Call where
  | getMarkets
  | getBalances
  | getOrderbook (market : String)
  | sellLimit (market : String) (amount rate : ℚ)
  | getOrder (uuid : String)
  | publish (subject message : String)
deriving DecidableEq

/-- The uncaught exceptions the script can die on, one constructor per
`raise` site (lines 59, 92, 95, 147, 155, 162) plus the two crash sites: the
`IndexError` from reading an empty order-book side (lines 130 to 131) and the
`KeyError`/`TypeError` from a success response without `result.uuid`
(line 157). -/
inductive BotError where
  | invalidSide (side : String)
  | marketNotFound (mc bc : String)
  | amountBelowMin (minTradeSize : ℚ)
  | sellTooSmall (notional : ℚ)
  | orderRejected (message : String)
  | uuidKeyError
  | notImplementedBuy
  | indexErrorOrderBook
deriving DecidableEq

/-- Process outcome: `exit0` covers both normal completion and the bare
`exit()` at line 178 (both give process status 0); `raised e` is an uncaught
exception, which aborts with a nonzero status. -/
inductive Outcome where
  | exit0
  | raised (e : BotError)
deriving DecidableEq

/-- Boolean test for a `publish` call in a trace. -/
def isPublishCall : Call → Bool
  | .publish _ _ => true
  | _ => false

/-- Boolean test for a `sell_limit` (order placement) call in a trace. -/
def isSellLimitCall : Call → Bool
  | .sellLimit _ _ _ => true
  | _ => false

/-- Boolean test for a `get_order` call in a trace. -/
def isGetOrderCall : Call → Bool
  | .getOrder _ => true
  | _ => false

/-- ASCII lower-casing of one character, as `str.lower` acts on the ASCII
range used by the CLI values `BUY` / `SELL`. -/
def lowerChar (c : Char) : Char :=
  if 65 ≤ c.toNat ∧ c.toNat ≤ 90 then Char.ofNat (c.toNat + 32) else c

/-- Model of `args.order_side.lower()` (line 54). -/
def lowerStr (s : String) : String := ⟨s.data.map lowerChar⟩

/-- Line 55: `market_name = "%s-%s" % (base_currency, market_currency)`. -/
def market_name (bc mc : String) : String := bc ++ "-" ++ mc

/-- Lines 85 to 89: scan the market listing and take `MinTradeSize` of the
first entry matching both currencies exactly; `none` when no entry matches. -/
def find_min_trade_size : List MarketEntry → String → String → Option ℚ
  | [], _, _ => none
  | m :: rest, mc, bc =>
    if m.marketCurrency = mc ∧ m.baseCurrency = bc then some m.minTradeSize
    else find_min_trade_size rest mc bc

/-- One line of the balances report (line 104): tab, currency, value. -/
def balanceLine (fmtg : ℚ → String) (b : Balance) : String :=
  "\t" ++ b.currency ++ ": " ++ fmtg b.balance ++ "\n"

/-- Lines 101 to 104: the balances summary, restricted to the two involved
currencies.  `fmtg` models the `%g` float rendering. -/
def balances_report (fmtg : ℚ → String) (balances : List Balance)
    (mc bc : String) : String :=
  "\nBalances:\n" ++
    String.join
      (((balances.filter fun b => b.currency = mc || b.currency = bc)).map
        (balanceLine fmtg))

/-- Round a rational to the nearest integer, ties to even: the rounding that
Python `round` applies to a `Decimal` (`ROUND_HALF_EVEN`). -/
def rhe (x : ℚ) : ℤ :=
  if x - ⌊x⌋ < 1 / 2 then ⌊x⌋
  else if 1 / 2 < x - ⌊x⌋ then ⌊x⌋ + 1
  else if ⌊x⌋ % 2 = 0 then ⌊x⌋ else ⌊x⌋ + 1

/-- Round to 8 decimal places, ties to even: `round(d, 8)` on a `Decimal`. -/
def round8 (x : ℚ) : ℚ := (rhe (x * 10 ^ 8) : ℚ) / 10 ^ 8

/-- Line 132: `market_rate = Decimal(round((buy_rate + sell_rate) /
Decimal('2.0'), 8))`, the rounded midpoint. -/
def market_rate_initial (buy_rate sell_rate : ℚ) : ℚ :=
  round8 ((buy_rate + sell_rate) / 2)

/-- Lines 132 and 141 to 144: the final sell-side price.  When the spread
`sell_rate - buy_rate` is at most `Decimal('0.00000001')` the midpoint is
replaced by `buy_rate`; otherwise the rounded midpoint stands. -/
def market_rate_sell (buy_rate sell_rate : ℚ) : ℚ :=
  if sell_rate - buy_rate ≤ 1 / 100000000 then buy_rate
  else market_rate_initial buy_rate sell_rate

/-- Line 194: `market_rate * Decimal(amount) * Decimal('.9975')`, the net
proceeds after the flat 0.25 percent fee. -/
def total_proceeds (market_rate amount : ℚ) : ℚ :=
  market_rate * amount * (9975 / 10000)

/-- Left-pad a digit string with zeros to width 8. -/
def zfill8 (s : String) : String :=
  ⟨List.replicate (8 - s.length) '0' ++ s.data⟩

/-- Fixed-point rendering with 8 decimal places, ties to even, modelling the
`"%0.8f"` conversions in the report and subjects.  (Python routes the
`Decimal` through `float` first; at 8 printed decimal places this is
value-preserving for the magnitudes a trade involves, so the exact rendering
is used.) -/
def fmt8 (x : ℚ) : String :=
  (if rhe (x * 10 ^ 8) < 0 then "-" else "") ++
    toString ((rhe (x * 10 ^ 8)).natAbs / 10 ^ 8) ++ "." ++
    zfill8 (toString ((rhe (x * 10 ^ 8)).natAbs % 10 ^ 8))

/-- Python `str` of a boolean. -/
def pyStr (b : Bool) : String := if b then "True" else "False"

/-- Python `str` of the `sell_limit` response dictionary, in the shape quoted
at line 149 of the source: `{'success': ..., 'message': '...', 'result':
{'uuid': '...'}}` (result `None` when absent).  Message text is inserted
as-is, which matches `repr` for messages free of quote characters. -/
def pyReprSellResp (r : SellResp) : String :=
  "\x7b\x27success\x27: " ++ pyStr r.success ++ ", \x27message\x27: \x27" ++
    r.message ++ "\x27, \x27result\x27: " ++
    (match r.uuid with
     | some u => "\x7b\x27uuid\x27: \x27" ++ u ++ "\x27\x7d"
     | none => "None") ++ "\x7d"

/-- Line 159: subject of the success notification. -/
def sold_subject (fmtg : ℚ → String) (amount : ℚ) (mc : String)
    (market_rate : ℚ) (bc : String) : String :=
  "Sold " ++ fmtg amount ++ " " ++ mc ++ " @ " ++ fmt8 market_rate ++ " " ++ bc

/-- Line 175: subject of the timeout alert, describing the order as
OPEN/UNFILLED. -/
def timeout_subject (fmtg : ℚ → String) (order_side : String) (amount : ℚ)
    (mc : String) (market_rate : ℚ) (bc : String) : String :=
  order_side ++ " " ++ fmtg amount ++ " " ++ mc ++ " OPEN/UNFILLED @ " ++
    fmt8 market_rate ++ " " ++ bc

/-- Lines 189 to 194: the success report body. -/
def report_text (fmtg : ℚ → String) (order_side : String) (amount : ℚ)
    (mc bc : String) (buy_rate sell_rate market_rate : ℚ) : String :=
  "order_side: " ++ order_side ++ "\n" ++
    "amount: " ++ fmtg amount ++ " " ++ mc ++ "\n" ++
    "buy_rate: " ++ fmt8 buy_rate ++ " " ++ bc ++ "\n" ++
    "sell_rate: " ++ fmt8 sell_rate ++ " " ++ bc ++ "\n" ++
    "market_rate: " ++ fmt8 market_rate ++ " " ++ bc ++ "\n" ++
    "TOTAL PROCEEDS: " ++ fmt8 (total_proceeds market_rate amount) ++ " " ++
    bc ++ "\n"

/-- Result of the poll loop: either the timeout alert fired (recording the
value of `total_wait_time` at that moment and the index of the last
`get_order` response seen), or the order closed at fetch `idx`. -/
inductive PollRes where
  | timedOut (total : Nat) (idx : Nat)
  | closedAt (idx : Nat)
deriving DecidableEq

/-- Lines 171 to 187, the poll loop.  On entry the current response is
`ords k` (already fetched) and `total_wait_time = total`.  While the order is
not closed: if `total_wait_time > warn_after` publish the alert with the
current payload and exit; otherwise sleep 60, add 60 to the counter and fetch
again.  Returns the calls made inside the loop and the loop result. -/
def pollAux (ords : Nat → OrderResp) (uuid : String) (warn_after : ℤ)
    (tsubj : String) (k : Nat) (total : Nat) : List Call × PollRes :=
  if (ords k).closed then ([], .closedAt k)
  else if warn_after < (total : ℤ) then
    ([Call.publish tsubj (ords k).payload], .timedOut total k)
  else
    let r := pollAux ords uuid warn_after tsubj (k + 1) (total + 60)
    (Call.getOrder uuid :: r.1, r.2)
termination_by (warn_after + 1 - (total : ℤ)).toNat
decreasing_by
  omega

/-- Lines 100 to 202, everything after market validation: fetch balances and
the order book, derive the price, run the sell branch (minimum-notional
check, `sell_limit`, response checks), poll, and report.  The `buy` branch
raises at line 162 with the order book already fetched. -/
def tradePhase (fmtg : ℚ → String) (order_side : String) (amount : ℚ)
    (mc bc mname : String) (warn_after : ℤ) (ex : Exchange) :
    List Call × Outcome :=
  match ex.book.buy, ex.book.sell with
  | [], _ =>
    ([.getBalances, .getOrderbook mname], .raised .indexErrorOrderBook)
  | _ :: _, [] =>
    ([.getBalances, .getOrderbook mname], .raised .indexErrorOrderBook)
  | b0 :: _, s0 :: _ =>
    if order_side = "sell" then
      if market_rate_sell b0.rate s0.rate * amount < 5 / 10000 then
        ([.getBalances, .getOrderbook mname],
          .raised (.sellTooSmall (market_rate_sell b0.rate s0.rate * amount)))
      else
        if ex.sellResp.success = false then
          ([.getBalances, .getOrderbook mname,
              .sellLimit mname amount (market_rate_sell b0.rate s0.rate)],
            .raised (.orderRejected
              ("Error placing order: " ++ pyReprSellResp ex.sellResp)))
        else
          match ex.sellResp.uuid with
          | none =>
            ([.getBalances, .getOrderbook mname,
                .sellLimit mname amount (market_rate_sell b0.rate s0.rate)],
              .raised .uuidKeyError)
          | some order_uuid =>
            let pr := pollAux ex.orders order_uuid warn_after
              (timeout_subject fmtg order_side amount mc
                (market_rate_sell b0.rate s0.rate) bc) 0 0
            match pr.2 with
            | .timedOut _ _ =>
              ([.getBalances, .getOrderbook mname,
                  .sellLimit mname amount (market_rate_sell b0.rate s0.rate),
                  .getOrder order_uuid] ++ pr.1, .exit0)
            | .closedAt _ =>
              ([.getBalances, .getOrderbook mname,
                  .sellLimit mname amount (market_rate_sell b0.rate s0.rate),
                  .getOrder order_uuid] ++ pr.1 ++
                  [.publish (sold_subject fmtg amount mc
                      (market_rate_sell b0.rate s0.rate) bc)
                    (report_text fmtg order_side amount mc bc b0.rate s0.rate
                        (market_rate_sell b0.rate s0.rate) ++
                      balances_report fmtg ex.balances mc bc)], .exit0)
    else
      ([.getBalances, .getOrderbook mname], .raised .notImplementedBuy)

/-- The whole run, lines 51 to 202: lower-case and check the side (lines 54,
58 to 59), look up and check the minimum trade size (lines 83 to 95; note
line 91 tests Python falsiness, so a minimum of `0` is treated like a missing
market), then hand over to `tradePhase`. -/
def runMain (fmtg : ℚ → String) (args : Args) (ex : Exchange) :
    List Call × Outcome :=
  if ¬ (lowerStr args.order_side = "buy" ∨ lowerStr args.order_side = "sell")
  then ([], .raised (.invalidSide (lowerStr args.order_side)))
  else
    match find_min_trade_size ex.markets args.market_currency
        args.base_currency with
    | none =>
      ([.getMarkets],
        .raised (.marketNotFound args.market_currency args.base_currency))
    | some min_trade_size =>
      if min_trade_size = 0 then
        ([.getMarkets],
          .raised (.marketNotFound args.market_currency args.base_currency))
      else if args.amount < min_trade_size then
        ([.getMarkets], .raised (.amountBelowMin min_trade_size))
      else
        let r := tradePhase fmtg (lowerStr args.order_side) args.amount
          args.market_currency args.base_currency
          (market_name args.base_currency args.market_currency)
          args.warn_after ex
        (Call.getMarkets :: r.1, r.2)

/-- Fuel-driven floor of the base-2 logarithm on naturals (`0` below `2`). -/
def nlog2Aux : Nat → Nat → Nat
  | 0, _ => 0
  | fuel + 1, n => if n ≤ 1 then 0 else nlog2Aux fuel (n / 2) + 1

/-- Floor of the base-2 logarithm of a natural number. -/
def nlog2 (n : Nat) : Nat := nlog2Aux n n

/-- Floor of the base-2 logarithm of a positive rational, exact for
`y ≥ 2 ^ (-200)`, far below any representable currency amount. -/
def ilog2 (y : ℚ) : ℤ := (nlog2 (⌊y * 2 ^ 200⌋).toNat : ℤ) - 200

/-- The IEEE-754 binary64 value nearest to `x` (ties to even), as an exact
rational: 53 significant bits at the exponent of `x`.  Faithful on the normal
range (magnitudes between `2 ^ (-200)` and well past any order size);
overflow and subnormals are outside the modelled range. -/
def floatOfRat (x : ℚ) : ℚ :=
  if x = 0 then 0
  else
    (if x < 0 then -1 else 1) *
      (rhe (|x| * 2 ^ ((52 : ℤ) - ilog2 |x|)) : ℚ) /
      2 ^ ((52 : ℤ) - ilog2 |x|)

/-- Line 23: `parser.add_argument('amount', type=float, ...)`.  The decimal
string the user writes (exact value `w`) is parsed into a binary float, so
the program computes with the nearest binary64 instead of `w` itself. -/
def parse_amount (w : ℚ) : ℚ := floatOfRat w

/-- The value of `total_wait_time` at the moment the timeout alert fires,
divided by 60: the first `k` with `60 * k > warn_after` (on a run whose order
never closes). -/
def alertIndex (warn_after : ℤ) : Nat :=
  if warn_after < 0 then 0 else warn_after.toNat / 60 + 1

/-! ### Helper lemmas -/

lemma alertIndex_gt (wa : ℤ) : wa < 60 * (alertIndex wa : ℤ) := by
  unfold alertIndex
  split <;> omega

lemma alertIndex_min (wa : ℤ) (j : ℕ) (hj : j < alertIndex wa) :
    (60 * j : ℤ) ≤ wa := by
  unfold alertIndex at hj
  split at hj <;> omega

lemma pollAux_closed0 (ords : Nat → OrderResp) (u : String) (wa : ℤ)
    (ts : String) (h : (ords 0).closed = true) :
    pollAux ords u wa ts 0 0 = ([], .closedAt 0) := by
  rw [pollAux, h]
  simp

lemma pollAux_timeout (ords : Nat → OrderResp) (u : String) (wa : ℤ)
    (ts : String) (h : ∀ j ≤ alertIndex wa, (ords j).closed = false) :
    ∀ d k, k + d = alertIndex wa →
      pollAux ords u wa ts k (60 * k) =
        (List.replicate d (Call.getOrder u) ++
            [Call.publish ts ((ords (alertIndex wa)).payload)],
          .timedOut (60 * alertIndex wa) (alertIndex wa)) := by
  intro d
  induction d with
  | zero =>
    intro k hk
    have hk0 : k = alertIndex wa := by omega
    subst hk0
    have hgt : wa < ((60 * alertIndex wa : ℕ) : ℤ) := by
      have := alertIndex_gt wa
      push_cast
      omega
    rw [pollAux, h _ le_rfl]
    rw [if_neg (by simp : ¬ (false = true)), if_pos hgt]
    simp
  | succ d ih =>
    intro k hk
    have hklt : k < alertIndex wa := by omega
    have hle : ¬ wa < ((60 * k : ℕ) : ℤ) := by
      have := alertIndex_min wa k hklt
      push_cast
      omega
    rw [pollAux, h k (Nat.le_of_lt hklt)]
    rw [if_neg (by simp : ¬ (false = true)), if_neg hle]
    show (Call.getOrder u :: (pollAux ords u wa ts (k + 1) (60 * k + 60)).1,
        (pollAux ords u wa ts (k + 1) (60 * k + 60)).2) = _
    rw [show 60 * k + 60 = 60 * (k + 1) by ring]
    rw [ih (k + 1) (by omega)]
    simp [List.replicate_succ]

lemma pollAux_timeout0 (ords : Nat → OrderResp) (u : String) (wa : ℤ)
    (ts : String) (h : ∀ j ≤ alertIndex wa, (ords j).closed = false) :
    pollAux ords u wa ts 0 0 =
      (List.replicate (alertIndex wa) (Call.getOrder u) ++
          [Call.publish ts ((ords (alertIndex wa)).payload)],
        .timedOut (60 * alertIndex wa) (alertIndex wa)) := by
  have := pollAux_timeout ords u wa ts h (alertIndex wa) 0 (by omega)
  simpa using this

lemma tradePhase_head (fmtg : ℚ → String) (os : String) (amount : ℚ)
    (mc bc mname : String) (wa : ℤ) (ex : Exchange) :
    ∃ t, (tradePhase fmtg os amount mc bc mname wa ex).1 =
      Call.getBalances :: Call.getOrderbook mname :: t := by
  unfold tradePhase
  dsimp only
  repeat' split
  all_goals exact ⟨_, rfl⟩

lemma tradePhase_no_validation_error (fmtg : ℚ → String) (os : String)
    (amount : ℚ) (mc bc mname : String) (wa : ℤ) (ex : Exchange) :
    (∀ m', (tradePhase fmtg os amount mc bc mname wa ex).2 ≠
        .raised (.amountBelowMin m')) ∧
    (∀ a b, (tradePhase fmtg os amount mc bc mname wa ex).2 ≠
        .raised (.marketNotFound a b)) := by
  unfold tradePhase
  dsimp only
  repeat' split
  all_goals simp

lemma tradePhase_sell_reject (fmtg : ℚ → String) (amount : ℚ)
    (mc bc mname : String) (wa : ℤ) (ex : Exchange) (b0 s0 : ObEntry)
    (bt st : List ObEntry)
    (hb : ex.book.buy = b0 :: bt) (hs : ex.book.sell = s0 :: st)
    (hsmall : market_rate_sell b0.rate s0.rate * amount < 5 / 10000) :
    tradePhase fmtg "sell" amount mc bc mname wa ex =
      ([.getBalances, .getOrderbook mname],
        .raised (.sellTooSmall (market_rate_sell b0.rate s0.rate * amount))) := by
  unfold tradePhase
  rw [hb, hs]
  dsimp only
  rw [if_pos rfl, if_pos hsmall]

lemma tradePhase_sell_pass (fmtg : ℚ → String) (amount : ℚ)
    (mc bc mname : String) (wa : ℤ) (ex : Exchange) (b0 s0 : ObEntry)
    (bt st : List ObEntry)
    (hb : ex.book.buy = b0 :: bt) (hs : ex.book.sell = s0 :: st)
    (hnot : ¬ market_rate_sell b0.rate s0.rate * amount < 5 / 10000) :
    ∃ t o, tradePhase fmtg "sell" amount mc bc mname wa ex =
      (Call.getBalances :: Call.getOrderbook mname ::
          Call.sellLimit mname amount (market_rate_sell b0.rate s0.rate) :: t,
        o) ∧ ∀ v, o ≠ .raised (.sellTooSmall v) := by
  unfold tradePhase
  rw [hb, hs]
  dsimp only
  rw [if_pos rfl, if_neg hnot]
  split
  · exact ⟨_, _, rfl, by simp⟩
  · split
    · exact ⟨_, _, rfl, by simp⟩
    · split
      · exact ⟨_, _, rfl, by simp⟩
      · exact ⟨_, _, rfl, by simp⟩

lemma tradePhase_sell_rejected_resp (fmtg : ℚ → String) (amount : ℚ)
    (mc bc mname : String) (wa : ℤ) (ex : Exchange) (b0 s0 : ObEntry)
    (bt st : List ObEntry)
    (hb : ex.book.buy = b0 :: bt) (hs : ex.book.sell = s0 :: st)
    (hnot : ¬ market_rate_sell b0.rate s0.rate * amount < 5 / 10000)
    (hfail : ex.sellResp.success = false) :
    tradePhase fmtg "sell" amount mc bc mname wa ex =
      ([.getBalances, .getOrderbook mname,
          .sellLimit mname amount (market_rate_sell b0.rate s0.rate)],
        .raised (.orderRejected
          ("Error placing order: " ++ pyReprSellResp ex.sellResp))) := by
  unfold tradePhase
  rw [hb, hs]
  dsimp only
  rw [if_pos rfl, if_neg hnot, if_pos hfail]

lemma tradePhase_sell_nouuid (fmtg : ℚ → String) (amount : ℚ)
    (mc bc mname : String) (wa : ℤ) (ex : Exchange) (b0 s0 : ObEntry)
    (bt st : List ObEntry)
    (hb : ex.book.buy = b0 :: bt) (hs : ex.book.sell = s0 :: st)
    (hnot : ¬ market_rate_sell b0.rate s0.rate * amount < 5 / 10000)
    (hsucc : ex.sellResp.success = true) (hnone : ex.sellResp.uuid = none) :
    tradePhase fmtg "sell" amount mc bc mname wa ex =
      ([.getBalances, .getOrderbook mname,
          .sellLimit mname amount (market_rate_sell b0.rate s0.rate)],
        .raised .uuidKeyError) := by
  unfold tradePhase
  rw [hb, hs]
  dsimp only
  rw [if_pos rfl, if_neg hnot, if_neg (by simp [hsucc]), hnone]

lemma tradePhase_sell_uuid (fmtg : ℚ → String) (amount : ℚ)
    (mc bc mname : String) (wa : ℤ) (ex : Exchange) (b0 s0 : ObEntry)
    (bt st : List ObEntry) (u : String)
    (hb : ex.book.buy = b0 :: bt) (hs : ex.book.sell = s0 :: st)
    (hnot : ¬ market_rate_sell b0.rate s0.rate * amount < 5 / 10000)
    (hsucc : ex.sellResp.success = true) (huuid : ex.sellResp.uuid = some u) :
    tradePhase fmtg "sell" amount mc bc mname wa ex =
      (match (pollAux ex.orders u wa
          (timeout_subject fmtg "sell" amount mc
            (market_rate_sell b0.rate s0.rate) bc) 0 0).2 with
       | .timedOut _ _ =>
         ([.getBalances, .getOrderbook mname,
             .sellLimit mname amount (market_rate_sell b0.rate s0.rate),
             .getOrder u] ++
           (pollAux ex.orders u wa
             (timeout_subject fmtg "sell" amount mc
               (market_rate_sell b0.rate s0.rate) bc) 0 0).1, .exit0)
       | .closedAt _ =>
         ([.getBalances, .getOrderbook mname,
             .sellLimit mname amount (market_rate_sell b0.rate s0.rate),
             .getOrder u] ++
           (pollAux ex.orders u wa
             (timeout_subject fmtg "sell" amount mc
               (market_rate_sell b0.rate s0.rate) bc) 0 0).1 ++
           [.publish (sold_subject fmtg amount mc
               (market_rate_sell b0.rate s0.rate) bc)
             (report_text fmtg "sell" amount mc bc b0.rate s0.rate
                 (market_rate_sell b0.rate s0.rate) ++
               balances_report fmtg ex.balances mc bc)], .exit0)) := by
  unfold tradePhase
  rw [hb, hs]
  dsimp only
  rw [if_pos rfl, if_neg hnot, if_neg (by simp [hsucc]), huuid]

lemma tradePhase_filled (fmtg : ℚ → String) (amount : ℚ)
    (mc bc mname : String) (wa : ℤ) (ex : Exchange) (b0 s0 : ObEntry)
    (bt st : List ObEntry) (u : String)
    (hb : ex.book.buy = b0 :: bt) (hs : ex.book.sell = s0 :: st)
    (hnot : ¬ market_rate_sell b0.rate s0.rate * amount < 5 / 10000)
    (hsucc : ex.sellResp.success = true) (huuid : ex.sellResp.uuid = some u)
    (hclosed : (ex.orders 0).closed = true) :
    tradePhase fmtg "sell" amount mc bc mname wa ex =
      ([.getBalances, .getOrderbook mname,
          .sellLimit mname amount (market_rate_sell b0.rate s0.rate),
          .getOrder u,
          .publish (sold_subject fmtg amount mc
              (market_rate_sell b0.rate s0.rate) bc)
            (report_text fmtg "sell" amount mc bc b0.rate s0.rate
                (market_rate_sell b0.rate s0.rate) ++
              balances_report fmtg ex.balances mc bc)], .exit0) := by
  rw [tradePhase_sell_uuid fmtg amount mc bc mname wa ex b0 s0 bt st u hb hs
    hnot hsucc huuid]
  rw [pollAux_closed0 _ _ _ _ hclosed]
  simp

lemma tradePhase_timedout (fmtg : ℚ → String) (amount : ℚ)
    (mc bc mname : String) (wa : ℤ) (ex : Exchange) (b0 s0 : ObEntry)
    (bt st : List ObEntry) (u : String)
    (hb : ex.book.buy = b0 :: bt) (hs : ex.book.sell = s0 :: st)
    (hnot : ¬ market_rate_sell b0.rate s0.rate * amount < 5 / 10000)
    (hsucc : ex.sellResp.success = true) (huuid : ex.sellResp.uuid = some u)
    (hnc : ∀ j ≤ alertIndex wa, (ex.orders j).closed = false) :
    tradePhase fmtg "sell" amount mc bc mname wa ex =
      ([.getBalances, .getOrderbook mname,
          .sellLimit mname amount (market_rate_sell b0.rate s0.rate),
          .getOrder u] ++
        (List.replicate (alertIndex wa) (Call.getOrder u) ++
          [Call.publish
            (timeout_subject fmtg "sell" amount mc
              (market_rate_sell b0.rate s0.rate) bc)
            ((ex.orders (alertIndex wa)).payload)]), .exit0) := by
  rw [tradePhase_sell_uuid fmtg amount mc bc mname wa ex b0 s0 bt st u hb hs
    hnot hsucc huuid]
  rw [pollAux_timeout0 _ _ _ _ hnc]

lemma runMain_validated (fmtg : ℚ → String) (args : Args) (ex : Exchange)
    (mts : ℚ)
    (hv : lowerStr args.order_side = "buy" ∨ lowerStr args.order_side = "sell")
    (hm : find_min_trade_size ex.markets args.market_currency
        args.base_currency = some mts)
    (h0 : ¬ mts = 0) (hge : ¬ args.amount < mts) :
    runMain fmtg args ex =
      (Call.getMarkets ::
          (tradePhase fmtg (lowerStr args.order_side) args.amount
            args.market_currency args.base_currency
            (market_name args.base_currency args.market_currency)
            args.warn_after ex).1,
        (tradePhase fmtg (lowerStr args.order_side) args.amount
          args.market_currency args.base_currency
          (market_name args.base_currency args.market_currency)
          args.warn_after ex).2) := by
  unfold runMain
  rw [if_neg (not_not_intro hv), hm]
  dsimp only
  rw [if_neg h0, if_neg hge]

lemma filter_publish_replicate (n : ℕ) (u : String) :
    (List.replicate n (Call.getOrder u)).filter isPublishCall = [] := by
  induction n with
  | zero => rfl
  | succ n ih => simp [List.replicate_succ, isPublishCall, ih]

lemma market_rate_sell_self (r : ℚ) : market_rate_sell r r = r := by
  unfold market_rate_sell
  rw [if_pos (by norm_num)]

lemma tradePhase_buy (fmtg : ℚ → String) (amount : ℚ) (mc bc mname : String)
    (wa : ℤ) (ex : Exchange) (b0 s0 : ObEntry) (bt st : List ObEntry)
    (hb : ex.book.buy = b0 :: bt) (hs : ex.book.sell = s0 :: st) :
    tradePhase fmtg "buy" amount mc bc mname wa ex =
      ([.getBalances, .getOrderbook mname], .raised .notImplementedBuy) := by
  unfold tradePhase
  rw [hb, hs]
  dsimp only
  rw [if_neg (by simp)]

/-! ### Concrete fixtures used by the witnesses -/

/-- A trivial rendering standing in for the `%g` float formatter. -/
def fmtg0 : ℚ → String := fun _ => "1"

/-- Arguments `SELL 1 XLM BTC` with the default warn threshold. -/
def args0 : Args := ⟨"SELL", 1, "XLM", "BTC", 3600⟩

/-- Arguments `BUY 1 XLM BTC` with the default warn threshold. -/
def args0buy : Args := ⟨"BUY", 1, "XLM", "BTC", 3600⟩

/-- A market listing holding the XLM-BTC pair with minimum trade size 1. -/
def markets0 : List MarketEntry := [⟨"XLM", "BTC", 1⟩]

/-- An order book with a single entry on each side, both at rate 2. -/
def book0 : OrderBook := ⟨[⟨1, 2⟩], [⟨1, 2⟩]⟩

/-- Exchange oracle for a run whose order closes at the first status check. -/
def exFilled : Exchange :=
  ⟨markets0, [⟨"XLM", 5⟩], book0, ⟨true, "", some "u1"⟩,
    fun _ => ⟨true, "closed-payload"⟩⟩

/-- Exchange oracle for a run whose order never closes. -/
def exOpen : Exchange :=
  ⟨markets0, [⟨"XLM", 5⟩], book0, ⟨true, "", some "u1"⟩,
    fun _ => ⟨false, "open-payload"⟩⟩

lemma markets0_find : find_min_trade_size markets0 "XLM" "BTC" = some 1 := by
  simp [markets0, find_min_trade_size]

lemma hnot_fixture : ¬ market_rate_sell (2 : ℚ) 2 * 1 < 5 / 10000 := by
  rw [market_rate_sell_self]
  norm_num

/-! ### Evaluation of the float model at one tenth -/

set_option maxRecDepth 4000 in
lemma ilog2_tenth : ilog2 (1 / 10 : ℚ) = -4 := by
  unfold ilog2
  have h : (⌊(1 / 10 : ℚ) * 2 ^ 200⌋) =
      160693804425899027554196209234116260252220299378279283530137 := by
    norm_num
  rw [h]
  decide

lemma parse_amount_tenth :
    parse_amount (1 / 10 : ℚ) = 7205759403792794 / 2 ^ 56 := by
  unfold parse_amount floatOfRat
  rw [if_neg (by norm_num : ¬ (1 / 10 : ℚ) = 0)]
  have habs : |(1 / 10 : ℚ)| = 1 / 10 := by
    rw [abs_of_pos]
    norm_num
  rw [habs, ilog2_tenth]
  rw [if_neg (by norm_num : ¬ (1 / 10 : ℚ) < 0)]
  rw [show ((52 : ℤ) - (-4)) = 56 by norm_num]
  have harg : (1 / 10 : ℚ) * 2 ^ (56 : ℤ) = 36028797018963968 / 5 := by
    norm_num
  rw [harg]
  have hr : rhe (36028797018963968 / 5 : ℚ) = 7205759403792794 := by
    unfold rhe
    norm_num
  rw [hr]
  norm_num

/-! ### Claims -/

/-- C1: For every order book snapshot with best bid `bid` and best ask `ask`,
if `ask - bid > 0.00000001` the derived sell-side execution price equals the
midpoint rounded to 8 decimal places (ties to even, as Python `round` acts on
a `Decimal`); if `ask - bid <= 0.00000001` the derived price equals `bid`
exactly (lines 132 and 141 to 144). -/
theorem claim_C1 (bid ask : ℚ) :
    (1 / 100000000 < ask - bid →
      market_rate_sell bid ask = round8 ((bid + ask) / 2)) ∧
    (ask - bid ≤ 1 / 100000000 → market_rate_sell bid ask = bid) := by
  constructor
  · intro h
    unfold market_rate_sell market_rate_initial
    rw [if_neg (by linarith)]
  · intro h
    unfold market_rate_sell
    rw [if_pos h]

/-- C1 witness: at `bid = 1, ask = 2` the spread exceeds the threshold and
the price is the rounded midpoint; at `bid = ask = 1` it is the bid. -/
theorem claim_C1_witness :
    market_rate_sell 1 2 = round8 ((1 + 2) / 2) ∧ market_rate_sell 1 1 = 1 :=
  ⟨(claim_C1 1 2).1 (by norm_num), (claim_C1 1 1).2 (by norm_num)⟩

/-- C9: In the poll loop (lines 167 to 187) under statuses that never report
closed, the loop publishes the alert with the payload of the last genuinely
fetched status (`ords k` models the `k`-th `get_order` response, the fetch at
line 167 being `k = 0`), the counter at that moment is `60 * alertIndex wa`
after starting at 0 and growing in steps of 60, `60 * alertIndex wa` is the
least multiple of 60 strictly greater than `warn_after`, and the alert fires
immediately at counter 0 when `warn_after` is negative. -/
theorem claim_C9 (ords : Nat → OrderResp) (u : String) (wa : ℤ) (ts : String)
    (h : ∀ j ≤ alertIndex wa, (ords j).closed = false) :
    pollAux ords u wa ts 0 0 =
      (List.replicate (alertIndex wa) (Call.getOrder u) ++
          [Call.publish ts ((ords (alertIndex wa)).payload)],
        .timedOut (60 * alertIndex wa) (alertIndex wa)) ∧
    wa < 60 * (alertIndex wa : ℤ) ∧
    (∀ j : ℕ, wa < 60 * (j : ℤ) → alertIndex wa ≤ j) ∧
    (wa < 0 → alertIndex wa = 0) := by
  refine ⟨pollAux_timeout0 ords u wa ts h, alertIndex_gt wa, fun j hj => ?_,
    fun hneg => ?_⟩
  · by_contra hlt
    have := alertIndex_min wa j (by omega)
    omega
  · unfold alertIndex
    rw [if_pos hneg]

/-- C9 witness: with statuses that never close and `warn_after = 130`, the
alert fires with counter 180 after three in-loop fetches. -/
theorem claim_C9_witness :
    pollAux (fun _ => ⟨false, "open-payload"⟩) "u1" 130 "t" 0 0 =
      (List.replicate (alertIndex 130) (Call.getOrder "u1") ++
          [Call.publish "t"
            (((fun _ => (⟨false, "open-payload"⟩ : OrderResp))
              (alertIndex 130)).payload)],
        .timedOut (60 * alertIndex 130) (alertIndex 130)) ∧
    (130 : ℤ) < 60 * (alertIndex 130 : ℤ) ∧
    (∀ j : ℕ, (130 : ℤ) < 60 * (j : ℤ) → alertIndex 130 ≤ j) ∧
    ((130 : ℤ) < 0 → alertIndex 130 = 0) :=
  claim_C9 (fun _ => ⟨false, "open-payload"⟩) "u1" 130 "t" (fun _ _ => rfl)

/-- C10: The price derivation (lines 129 to 132) is total exactly when both
order-book sides are non-empty: an empty side makes the run die on the
`IndexError` with no order placed and no notification sent; a non-empty book
never produces that error; and only the first entry of each side matters, the
tails being irrelevant to the whole trade phase. -/
theorem claim_C10 (fmtg : ℚ → String) (os : String) (amount : ℚ)
    (mc bc mname : String) (wa : ℤ) (ex : Exchange) :
    ((ex.book.buy = [] ∨ ex.book.sell = []) →
      (tradePhase fmtg os amount mc bc mname wa ex).2 =
        .raised .indexErrorOrderBook ∧
      ∀ c ∈ (tradePhase fmtg os amount mc bc mname wa ex).1,
        isSellLimitCall c = false ∧ isPublishCall c = false) ∧
    (∀ b0 bt s0 st, ex.book.buy = b0 :: bt → ex.book.sell = s0 :: st →
      (tradePhase fmtg os amount mc bc mname wa ex).2 ≠
        .raised .indexErrorOrderBook) ∧
    (∀ b0 bt bt2 s0 st st2 mkts bals resp ords,
      tradePhase fmtg os amount mc bc mname wa
          ⟨mkts, bals, ⟨b0 :: bt, s0 :: st⟩, resp, ords⟩ =
        tradePhase fmtg os amount mc bc mname wa
          ⟨mkts, bals, ⟨b0 :: bt2, s0 :: st2⟩, resp, ords⟩) := by
  refine ⟨fun h => ?_, fun b0 bt s0 st hb hs => ?_, ?_⟩
  · have hshape : tradePhase fmtg os amount mc bc mname wa ex =
        ([.getBalances, .getOrderbook mname], .raised .indexErrorOrderBook) := by
      rcases h with hb | hs
      · unfold tradePhase
        rw [hb]
      · rcases hbuy : ex.book.buy with _ | ⟨b0, bt⟩
        · unfold tradePhase
          rw [hbuy]
        · unfold tradePhase
          rw [hbuy, hs]
    rw [hshape]
    refine ⟨rfl, fun c hc => ?_⟩
    fin_cases hc <;> exact ⟨rfl, rfl⟩
  · unfold tradePhase
    rw [hb, hs]
    dsimp only
    repeat' split
    all_goals simp
  · intro b0 bt bt2 s0 st st2 mkts bals resp ords
    unfold tradePhase
    dsimp only

/-- C10 witness: an exchange whose order book is empty on both sides dies on
the index error without placing an order; the filled fixture with a
one-entry book does not raise it; and extending the book tails changes
nothing. -/
theorem claim_C10_witness :
    ((tradePhase fmtg0 "sell" 1 "XLM" "BTC" "BTC-XLM" 3600
        ⟨markets0, [], ⟨[], []⟩, ⟨true, "", some "u1"⟩,
          fun _ => ⟨true, "p"⟩⟩).2 = .raised .indexErrorOrderBook) ∧
    ((tradePhase fmtg0 "sell" 1 "XLM" "BTC" "BTC-XLM" 3600 exFilled).2 ≠
      .raised .indexErrorOrderBook) ∧
    tradePhase fmtg0 "sell" 1 "XLM" "BTC" "BTC-XLM" 3600
        ⟨markets0, [], ⟨[⟨1, 2⟩], [⟨1, 2⟩]⟩, ⟨true, "", some "u1"⟩,
          fun _ => ⟨true, "p"⟩⟩ =
      tradePhase fmtg0 "sell" 1 "XLM" "BTC" "BTC-XLM" 3600
        ⟨markets0, [], ⟨[⟨1, 2⟩, ⟨9, 9⟩], [⟨1, 2⟩, ⟨8, 8⟩]⟩,
          ⟨true, "", some "u1"⟩, fun _ => ⟨true, "p"⟩⟩ := by
  refine ⟨?_, ?_, ?_⟩
  · exact ((claim_C10 fmtg0 "sell" 1 "XLM" "BTC" "BTC-XLM" 3600
      ⟨markets0, [], ⟨[], []⟩, ⟨true, "", some "u1"⟩,
        fun _ => ⟨true, "p"⟩⟩).1 (Or.inl rfl)).1
  · exact (claim_C10 fmtg0 "sell" 1 "XLM" "BTC" "BTC-XLM" 3600 exFilled).2.1
      ⟨1, 2⟩ [] ⟨1, 2⟩ [] rfl rfl
  · exact (claim_C10 fmtg0 "sell" 1 "XLM" "BTC" "BTC-XLM" 3600 exFilled).2.2
      ⟨1, 2⟩ [] [⟨9, 9⟩] ⟨1, 2⟩ [] [⟨8, 8⟩] markets0 []
      ⟨true, "", some "u1"⟩ (fun _ => ⟨true, "p"⟩)

/-- C2: For a sell request that reaches the price derivation (valid side,
matched market with a nonzero minimum, sufficient amount, non-empty book),
the run dies on the order-too-small error exactly when
`marketRate * amount < 0.0005`, where `marketRate` is the final price after
the sell-side spread adjustment (lines 140 to 147); a rejected order is never
placed (no `sell_limit` call in the trace); and at exactly `0.0005` the check
passes and the order is submitted. -/
theorem claim_C2 (fmtg : ℚ → String) (args : Args) (ex : Exchange) (mts : ℚ)
    (b0 s0 : ObEntry) (bt st : List ObEntry)
    (hside : lowerStr args.order_side = "sell")
    (hm : find_min_trade_size ex.markets args.market_currency
        args.base_currency = some mts)
    (h0 : ¬ mts = 0) (hge : ¬ args.amount < mts)
    (hb : ex.book.buy = b0 :: bt) (hs : ex.book.sell = s0 :: st) :
    (market_rate_sell b0.rate s0.rate * args.amount < 5 / 10000 ↔
      (runMain fmtg args ex).2 =
        .raised (.sellTooSmall (market_rate_sell b0.rate s0.rate *
          args.amount))) ∧
    (market_rate_sell b0.rate s0.rate * args.amount < 5 / 10000 →
      ∀ c ∈ (runMain fmtg args ex).1, isSellLimitCall c = false) ∧
    (market_rate_sell b0.rate s0.rate * args.amount = 5 / 10000 →
      Call.sellLimit (market_name args.base_currency args.market_currency)
          args.amount (market_rate_sell b0.rate s0.rate) ∈
        (runMain fmtg args ex).1) := by
  have hrun := runMain_validated fmtg args ex mts (Or.inr hside) hm h0 hge
  rw [hside] at hrun
  refine ⟨⟨fun hsm => ?_, fun hout => ?_⟩, fun hsm c hc => ?_, fun heq => ?_⟩
  · rw [hrun]
    rw [tradePhase_sell_reject fmtg args.amount args.market_currency
      args.base_currency (market_name args.base_currency args.market_currency)
      args.warn_after ex b0 s0 bt st hb hs hsm]
  · by_contra hnot
    obtain ⟨t, o, htp, hno⟩ := tradePhase_sell_pass fmtg args.amount
      args.market_currency args.base_currency
      (market_name args.base_currency args.market_currency)
      args.warn_after ex b0 s0 bt st hb hs hnot
    rw [hrun, htp] at hout
    exact hno _ hout
  · rw [hrun] at hc
    rw [tradePhase_sell_reject fmtg args.amount args.market_currency
      args.base_currency (market_name args.base_currency args.market_currency)
      args.warn_after ex b0 s0 bt st hb hs hsm] at hc
    fin_cases hc <;> rfl
  · have hnot : ¬ market_rate_sell b0.rate s0.rate * args.amount < 5 / 10000 := by
      rw [heq]
      exact lt_irrefl _
    obtain ⟨t, o, htp, -⟩ := tradePhase_sell_pass fmtg args.amount
      args.market_currency args.base_currency
      (market_name args.base_currency args.market_currency)
      args.warn_after ex b0 s0 bt st hb hs hnot
    rw [hrun, htp]
    simp

/-- C2 witness: the fixture sell run (rate 2, amount 1) passes the
minimum-notional check, so the outcome is not the order-too-small error and
the rejection branch is vacuous. -/
theorem claim_C2_witness :
    ((market_rate_sell (2 : ℚ) 2 * (1 : ℚ) < 5 / 10000 ↔
      (runMain fmtg0 args0 exFilled).2 =
        .raised (.sellTooSmall (market_rate_sell (2 : ℚ) 2 * 1))) ∧
    (market_rate_sell (2 : ℚ) 2 * (1 : ℚ) < 5 / 10000 →
      ∀ c ∈ (runMain fmtg0 args0 exFilled).1, isSellLimitCall c = false) ∧
    (market_rate_sell (2 : ℚ) 2 * (1 : ℚ) = 5 / 10000 →
      Call.sellLimit (market_name "BTC" "XLM") 1 (market_rate_sell 2 2) ∈
        (runMain fmtg0 args0 exFilled).1)) :=
  claim_C2 fmtg0 args0 exFilled 1 ⟨1, 2⟩ ⟨1, 2⟩ [] [] (by decide)
    markets0_find (by norm_num) (by norm_num [args0]) rfl rfl

/-- C5: For every buy request the order-placement call is never made; and a
buy request that passes validation and the order-book read fails with the
not-implemented error of line 162. -/
theorem claim_C5 (fmtg : ℚ → String) (args : Args) (ex : Exchange)
    (hside : lowerStr args.order_side = "buy") :
    (∀ c ∈ (runMain fmtg args ex).1, isSellLimitCall c = false) ∧
    (∀ (mts : ℚ) (b0 s0 : ObEntry) (bt st : List ObEntry),
      find_min_trade_size ex.markets args.market_currency
          args.base_currency = some mts →
      ¬ mts = 0 → ¬ args.amount < mts →
      ex.book.buy = b0 :: bt → ex.book.sell = s0 :: st →
      (runMain fmtg args ex).2 = .raised .notImplementedBuy) := by
  constructor
  · intro c hc
    rcases hfind : find_min_trade_size ex.markets args.market_currency
        args.base_currency with _ | mts
    · unfold runMain at hc
      rw [if_neg (not_not_intro (Or.inl hside)), hfind] at hc
      fin_cases hc
      rfl
    · by_cases h0 : mts = 0
      · unfold runMain at hc
        rw [if_neg (not_not_intro (Or.inl hside)), hfind] at hc
        dsimp only at hc
        rw [if_pos h0] at hc
        fin_cases hc
        rfl
      · by_cases hlt : args.amount < mts
        · unfold runMain at hc
          rw [if_neg (not_not_intro (Or.inl hside)), hfind] at hc
          dsimp only at hc
          rw [if_neg h0, if_pos hlt] at hc
          fin_cases hc
          rfl
        · have hrun := runMain_validated fmtg args ex mts (Or.inl hside)
            hfind h0 hlt
          rw [hside] at hrun
          rw [hrun] at hc
          have htr : (tradePhase fmtg "buy" args.amount args.market_currency
              args.base_currency
              (market_name args.base_currency args.market_currency)
              args.warn_after ex).1 =
              [.getBalances, .getOrderbook
                (market_name args.base_currency args.market_currency)] := by
            unfold tradePhase
            dsimp only
            repeat' split
            all_goals first | rfl | simp_all
          rw [htr] at hc
          fin_cases hc <;> rfl
  · intro mts b0 s0 bt st hfind h0 hge hb hs
    have hrun := runMain_validated fmtg args ex mts (Or.inl hside) hfind h0 hge
    rw [hside] at hrun
    rw [hrun]
    rw [tradePhase_buy fmtg args.amount args.market_currency
      args.base_currency (market_name args.base_currency args.market_currency)
      args.warn_after ex b0 s0 bt st hb hs]

/-- C5 witness: the fixture buy run places no order and dies on the
not-implemented error. -/
theorem claim_C5_witness :
    (∀ c ∈ (runMain fmtg0 args0buy exFilled).1, isSellLimitCall c = false) ∧
    (runMain fmtg0 args0buy exFilled).2 = .raised .notImplementedBuy := by
  have h := claim_C5 fmtg0 args0buy exFilled (by decide)
  exact ⟨h.1, h.2 1 ⟨1, 2⟩ ⟨1, 2⟩ [] [] markets0_find (by norm_num)
    (by norm_num [args0buy]) rfl rfl⟩

/-- A market listing whose only entry matches XLM-BTC but carries minimum
trade size 0, which line 91 (`if not min_trade_size`) treats as missing. -/
def marketsZero : List MarketEntry := [⟨"XLM", "BTC", 0⟩]

/-- Exchange oracle built on `marketsZero`. -/
def exZero : Exchange :=
  ⟨marketsZero, [], book0, ⟨true, "", some "u1"⟩, fun _ => ⟨true, "p"⟩⟩

/-- C6 counterexample: the listing `marketsZero` has an entry matching the
request `SELL 1 XLM BTC` exactly, and the amount 1 is not below its minimum
trade size 0, yet the run raises the market-not-found error: line 91 tests
Python falsiness (`if not min_trade_size`), so a matched entry whose
`MinTradeSize` is 0 is treated as a missing market, contradicting the claim
that validation passes for every matched entry and amount at or above the
minimum. -/
theorem claim_C6_cex :
    ((⟨"XLM", "BTC", 0⟩ : MarketEntry) ∈ marketsZero ∧
      (⟨"XLM", "BTC", 0⟩ : MarketEntry).marketCurrency = "XLM" ∧
      (⟨"XLM", "BTC", 0⟩ : MarketEntry).baseCurrency = "BTC" ∧
      ¬ ((1 : ℚ) < (⟨"XLM", "BTC", 0⟩ : MarketEntry).minTradeSize)) ∧
    (runMain fmtg0 args0 exZero).2 =
      .raised (.marketNotFound "XLM" "BTC") := by
  refine ⟨⟨List.mem_singleton.mpr rfl, rfl, rfl, by norm_num⟩, ?_⟩
  have hfind : find_min_trade_size marketsZero "XLM" "BTC" = some 0 := by
    simp [marketsZero, find_min_trade_size]
  unfold runMain
  dsimp only [args0, exZero]
  rw [if_neg (by decide :
    ¬ ¬ (lowerStr "SELL" = "buy" ∨ lowerStr "SELL" = "sell"))]
  rw [hfind]
  dsimp only
  rw [if_pos rfl]

/-- C6 amended: with a valid side, the run fails with the market-not-found
error exactly when no listing entry matches both currencies or the first
matching entry has minimum trade size 0 (Python falsiness at line 91); given
a matched entry with nonzero minimum, the run fails with the below-minimum
error exactly when `amount < minTradeSize`, and otherwise proceeds past
validation (the balances fetch appears in the trace). -/
theorem claim_C6_amended (fmtg : ℚ → String) (args : Args) (ex : Exchange)
    (hv : lowerStr args.order_side = "buy" ∨
      lowerStr args.order_side = "sell") :
    (find_min_trade_size ex.markets args.market_currency
        args.base_currency = none →
      (runMain fmtg args ex).2 =
        .raised (.marketNotFound args.market_currency args.base_currency)) ∧
    (∀ mts, find_min_trade_size ex.markets args.market_currency
        args.base_currency = some mts → mts = 0 →
      (runMain fmtg args ex).2 =
        .raised (.marketNotFound args.market_currency args.base_currency)) ∧
    (∀ mts, find_min_trade_size ex.markets args.market_currency
        args.base_currency = some mts → ¬ mts = 0 →
      ((args.amount < mts ↔
        (runMain fmtg args ex).2 = .raised (.amountBelowMin mts)) ∧
      (runMain fmtg args ex).2 ≠
        .raised (.marketNotFound args.market_currency args.base_currency) ∧
      (¬ args.amount < mts →
        Call.getBalances ∈ (runMain fmtg args ex).1))) := by
  refine ⟨fun hnone => ?_, fun mts hfind h0 => ?_, fun mts hfind h0 => ?_⟩
  · unfold runMain
    rw [if_neg (not_not_intro hv), hnone]
  · unfold runMain
    rw [if_neg (not_not_intro hv), hfind]
    dsimp only
    rw [if_pos h0]
  · constructor
    · constructor
      · intro hlt
        unfold runMain
        rw [if_neg (not_not_intro hv), hfind]
        dsimp only
        rw [if_neg h0, if_pos hlt]
      · intro hout
        by_contra hge
        have hrun := runMain_validated fmtg args ex mts hv hfind h0 hge
        rw [hrun] at hout
        exact (tradePhase_no_validation_error fmtg (lowerStr args.order_side)
          args.amount args.market_currency args.base_currency
          (market_name args.base_currency args.market_currency)
          args.warn_after ex).1 mts hout
    · constructor
      · by_cases hge : args.amount < mts
        · unfold runMain
          rw [if_neg (not_not_intro hv), hfind]
          dsimp only
          rw [if_neg h0, if_pos hge]
          simp
        · have hrun := runMain_validated fmtg args ex mts hv hfind h0 hge
          rw [hrun]
          exact (tradePhase_no_validation_error fmtg (lowerStr args.order_side)
            args.amount args.market_currency args.base_currency
            (market_name args.base_currency args.market_currency)
            args.warn_after ex).2 args.market_currency args.base_currency
      · intro hge
        have hrun := runMain_validated fmtg args ex mts hv hfind h0 hge
        rw [hrun]
        obtain ⟨t, ht⟩ := tradePhase_head fmtg (lowerStr args.order_side)
          args.amount args.market_currency args.base_currency
          (market_name args.base_currency args.market_currency)
          args.warn_after ex
        rw [ht]
        simp

/-- C6 amended witness: on the filled fixture (matched entry, minimum 1,
amount 1) validation passes: the outcome is not the below-minimum error, not
the market-not-found error, and the balances fetch is in the trace. -/
theorem claim_C6_amended_witness :
    ((1 : ℚ) < 1 ↔
      (runMain fmtg0 args0 exFilled).2 = .raised (.amountBelowMin 1)) ∧
    (runMain fmtg0 args0 exFilled).2 ≠
      .raised (.marketNotFound "XLM" "BTC") ∧
    (¬ (1 : ℚ) < 1 → Call.getBalances ∈ (runMain fmtg0 args0 exFilled).1) :=
  (claim_C6_amended fmtg0 args0 exFilled (Or.inr (by decide))).2.2 1
    markets0_find (by norm_num)

/-- Exchange oracle whose order placement is rejected by the exchange. -/
def exRejected : Exchange :=
  ⟨markets0, [], book0, ⟨false, "INSUFFICIENT_FUNDS", none⟩,
    fun _ => ⟨true, "p"⟩⟩

/-- Exchange oracle whose placement response reports success but carries no
order identifier. -/
def exNoUuid : Exchange :=
  ⟨markets0, [], book0, ⟨true, "", none⟩, fun _ => ⟨true, "p"⟩⟩

lemma errStr_decomp (r : SellResp) :
    ∃ pre post, "Error placing order: " ++ pyReprSellResp r =
      pre ++ r.message ++ post := by
  refine ⟨"Error placing order: " ++
    ("\x7b\x27success\x27: " ++ (pyStr r.success ++ ", \x27message\x27: \x27")),
    "\x27, \x27result\x27: " ++
      ((match r.uuid with
        | some u => "\x7b\x27uuid\x27: \x27" ++ u ++ "\x27\x7d"
        | none => "None") ++ "\x7d"), ?_⟩
  simp [pyReprSellResp, String.append_assoc]

/-- C7: For a sell that reaches order placement: a response with the success
flag false kills the run with the order-rejected error wrapping the whole
exchange response, and the failure message appears verbatim inside it; a
success response without the identifier kills the run with the key error
that models the malformed-response failure; otherwise the identifier is
extracted and polling begins (the `get_order` call follows the placement in
the trace). -/
theorem claim_C7 (fmtg : ℚ → String) (amount : ℚ) (mc bc mname : String)
    (wa : ℤ) (ex : Exchange) (b0 s0 : ObEntry) (bt st : List ObEntry)
    (hb : ex.book.buy = b0 :: bt) (hs : ex.book.sell = s0 :: st)
    (hnot : ¬ market_rate_sell b0.rate s0.rate * amount < 5 / 10000) :
    (ex.sellResp.success = false →
      (tradePhase fmtg "sell" amount mc bc mname wa ex).2 =
        .raised (.orderRejected
          ("Error placing order: " ++ pyReprSellResp ex.sellResp)) ∧
      ∃ pre post, "Error placing order: " ++ pyReprSellResp ex.sellResp =
        pre ++ ex.sellResp.message ++ post) ∧
    (ex.sellResp.success = true → ex.sellResp.uuid = none →
      (tradePhase fmtg "sell" amount mc bc mname wa ex).2 =
        .raised .uuidKeyError) ∧
    (∀ u, ex.sellResp.success = true → ex.sellResp.uuid = some u →
      ∃ t, (tradePhase fmtg "sell" amount mc bc mname wa ex).1 =
        [.getBalances, .getOrderbook mname,
          .sellLimit mname amount (market_rate_sell b0.rate s0.rate),
          .getOrder u] ++ t) := by
  refine ⟨fun hfail => ⟨?_, errStr_decomp ex.sellResp⟩,
    fun hsucc hnone => ?_, fun u hsucc huuid => ?_⟩
  · rw [tradePhase_sell_rejected_resp fmtg amount mc bc mname wa ex b0 s0
      bt st hb hs hnot hfail]
  · rw [tradePhase_sell_nouuid fmtg amount mc bc mname wa ex b0 s0 bt st
      hb hs hnot hsucc hnone]
  · rw [tradePhase_sell_uuid fmtg amount mc bc mname wa ex b0 s0 bt st u
      hb hs hnot hsucc huuid]
    split
    · exact ⟨_, rfl⟩
    · exact ⟨_, List.append_assoc _ _ _⟩

/-- C7 witness: the three response shapes on the fixture book: a rejection
wraps the message `INSUFFICIENT_FUNDS`, a success without identifier dies on
the key error, and a success with identifier `u1` is followed by polling. -/
theorem claim_C7_witness :
    ((tradePhase fmtg0 "sell" 1 "XLM" "BTC" "BTC-XLM" 3600 exRejected).2 =
      .raised (.orderRejected
        ("Error placing order: " ++ pyReprSellResp exRejected.sellResp)) ∧
      ∃ pre post,
        "Error placing order: " ++ pyReprSellResp exRejected.sellResp =
          pre ++ exRejected.sellResp.message ++ post) ∧
    ((tradePhase fmtg0 "sell" 1 "XLM" "BTC" "BTC-XLM" 3600 exNoUuid).2 =
      .raised .uuidKeyError) ∧
    (∃ t, (tradePhase fmtg0 "sell" 1 "XLM" "BTC" "BTC-XLM" 3600 exFilled).1 =
      [.getBalances, .getOrderbook "BTC-XLM",
        .sellLimit "BTC-XLM" 1 (market_rate_sell 2 2), .getOrder "u1"] ++ t) :=
  ⟨(claim_C7 fmtg0 1 "XLM" "BTC" "BTC-XLM" 3600 exRejected ⟨1, 2⟩ ⟨1, 2⟩ [] []
      rfl rfl hnot_fixture).1 rfl,
    (claim_C7 fmtg0 1 "XLM" "BTC" "BTC-XLM" 3600 exNoUuid ⟨1, 2⟩ ⟨1, 2⟩ [] []
      rfl rfl hnot_fixture).2.1 rfl rfl,
    (claim_C7 fmtg0 1 "XLM" "BTC" "BTC-XLM" 3600 exFilled ⟨1, 2⟩ ⟨1, 2⟩ [] []
      rfl rfl hnot_fixture).2.2 "u1" rfl rfl⟩

/-- C4: On a sell run that reaches polling and whose order status never
reports closed through the alert point, the program publishes exactly one
notification, namely the timeout alert whose subject describes the order as
OPEN/UNFILLED and whose message is the payload of the last fetched status,
and then terminates with exit status 0 (the bare `exit()` of line 178)
without raising an error. -/
theorem claim_C4 (fmtg : ℚ → String) (args : Args) (ex : Exchange) (mts : ℚ)
    (b0 s0 : ObEntry) (bt st : List ObEntry) (u : String)
    (hside : lowerStr args.order_side = "sell")
    (hm : find_min_trade_size ex.markets args.market_currency
        args.base_currency = some mts)
    (h0 : ¬ mts = 0) (hge : ¬ args.amount < mts)
    (hb : ex.book.buy = b0 :: bt) (hs : ex.book.sell = s0 :: st)
    (hnot : ¬ market_rate_sell b0.rate s0.rate * args.amount < 5 / 10000)
    (hsucc : ex.sellResp.success = true) (huuid : ex.sellResp.uuid = some u)
    (hnc : ∀ j ≤ alertIndex args.warn_after, (ex.orders j).closed = false) :
    (runMain fmtg args ex).1.filter isPublishCall =
      [Call.publish
        (timeout_subject fmtg "sell" args.amount args.market_currency
          (market_rate_sell b0.rate s0.rate) args.base_currency)
        ((ex.orders (alertIndex args.warn_after)).payload)] ∧
    (runMain fmtg args ex).2 = .exit0 := by
  have hrun := runMain_validated fmtg args ex mts (Or.inr hside) hm h0 hge
  rw [hside] at hrun
  have htp := tradePhase_timedout fmtg args.amount args.market_currency
    args.base_currency (market_name args.base_currency args.market_currency)
    args.warn_after ex b0 s0 bt st u hb hs hnot hsucc huuid hnc
  rw [hrun, htp]
  constructor
  · simp [List.filter_append, filter_publish_replicate, isPublishCall]
  · rfl

/-- C4 witness: on the never-closing fixture the run publishes exactly the
timeout alert with the fetched payload and exits with status 0. -/
theorem claim_C4_witness :
    (runMain fmtg0 args0 exOpen).1.filter isPublishCall =
      [Call.publish
        (timeout_subject fmtg0 "sell" args0.amount "XLM"
          (market_rate_sell 2 2) "BTC")
        ((exOpen.orders (alertIndex 3600)).payload)] ∧
    (runMain fmtg0 args0 exOpen).2 = .exit0 :=
  claim_C4 fmtg0 args0 exOpen 1 ⟨1, 2⟩ ⟨1, 2⟩ [] [] "u1" (by decide)
    markets0_find (by norm_num) (by norm_num [args0]) rfl rfl hnot_fixture
    rfl rfl (fun _ _ => rfl)

lemma balances_report_filter (fmtg : ℚ → String) (bals : List Balance)
    (mc bc : String) :
    balances_report fmtg bals mc bc =
      balances_report fmtg
        (bals.filter fun b => b.currency = mc || b.currency = bc) mc bc := by
  unfold balances_report
  rw [List.filter_filter]
  simp

/-- C8: On a sell run whose order closes at the first status check, the
program publishes exactly one notification: the success report, whose
message contains the side, the amount, the market currency, the bid rate,
the ask rate, the literal computed market rate, and the net proceeds
computed as `marketRate * amount * 0.9975`, followed by the balances
summary, which is restricted to the two involved currencies; the run then
exits with status 0. -/
theorem claim_C8 (fmtg : ℚ → String) (args : Args) (ex : Exchange) (mts : ℚ)
    (b0 s0 : ObEntry) (bt st : List ObEntry) (u : String)
    (hside : lowerStr args.order_side = "sell")
    (hm : find_min_trade_size ex.markets args.market_currency
        args.base_currency = some mts)
    (h0 : ¬ mts = 0) (hge : ¬ args.amount < mts)
    (hb : ex.book.buy = b0 :: bt) (hs : ex.book.sell = s0 :: st)
    (hnot : ¬ market_rate_sell b0.rate s0.rate * args.amount < 5 / 10000)
    (hsucc : ex.sellResp.success = true) (huuid : ex.sellResp.uuid = some u)
    (hclosed : (ex.orders 0).closed = true) :
    (runMain fmtg args ex).1.filter isPublishCall =
      [Call.publish
        (sold_subject fmtg args.amount args.market_currency
          (market_rate_sell b0.rate s0.rate) args.base_currency)
        (report_text fmtg "sell" args.amount args.market_currency
            args.base_currency b0.rate s0.rate
            (market_rate_sell b0.rate s0.rate) ++
          balances_report fmtg ex.balances args.market_currency
            args.base_currency)] ∧
    (∃ p q, report_text fmtg "sell" args.amount args.market_currency
        args.base_currency b0.rate s0.rate
        (market_rate_sell b0.rate s0.rate) ++
        balances_report fmtg ex.balances args.market_currency
          args.base_currency = p ++ "sell" ++ q) ∧
    (∃ p q, report_text fmtg "sell" args.amount args.market_currency
        args.base_currency b0.rate s0.rate
        (market_rate_sell b0.rate s0.rate) ++
        balances_report fmtg ex.balances args.market_currency
          args.base_currency = p ++ fmtg args.amount ++ q) ∧
    (∃ p q, report_text fmtg "sell" args.amount args.market_currency
        args.base_currency b0.rate s0.rate
        (market_rate_sell b0.rate s0.rate) ++
        balances_report fmtg ex.balances args.market_currency
          args.base_currency = p ++ args.market_currency ++ q) ∧
    (∃ p q, report_text fmtg "sell" args.amount args.market_currency
        args.base_currency b0.rate s0.rate
        (market_rate_sell b0.rate s0.rate) ++
        balances_report fmtg ex.balances args.market_currency
          args.base_currency = p ++ fmt8 b0.rate ++ q) ∧
    (∃ p q, report_text fmtg "sell" args.amount args.market_currency
        args.base_currency b0.rate s0.rate
        (market_rate_sell b0.rate s0.rate) ++
        balances_report fmtg ex.balances args.market_currency
          args.base_currency = p ++ fmt8 s0.rate ++ q) ∧
    (∃ p q, report_text fmtg "sell" args.amount args.market_currency
        args.base_currency b0.rate s0.rate
        (market_rate_sell b0.rate s0.rate) ++
        balances_report fmtg ex.balances args.market_currency
          args.base_currency =
        p ++ fmt8 (market_rate_sell b0.rate s0.rate) ++ q) ∧
    (∃ p q, report_text fmtg "sell" args.amount args.market_currency
        args.base_currency b0.rate s0.rate
        (market_rate_sell b0.rate s0.rate) ++
        balances_report fmtg ex.balances args.market_currency
          args.base_currency =
        p ++ fmt8 (total_proceeds (market_rate_sell b0.rate s0.rate)
          args.amount) ++ q) ∧
    (∃ p, report_text fmtg "sell" args.amount args.market_currency
        args.base_currency b0.rate s0.rate
        (market_rate_sell b0.rate s0.rate) ++
        balances_report fmtg ex.balances args.market_currency
          args.base_currency =
        p ++ balances_report fmtg ex.balances args.market_currency
          args.base_currency) ∧
    balances_report fmtg ex.balances args.market_currency
        args.base_currency =
      balances_report fmtg
        (ex.balances.filter fun b => b.currency = args.market_currency ||
          b.currency = args.base_currency)
        args.market_currency args.base_currency ∧
    (runMain fmtg args ex).2 = .exit0 := by
  have hrun := runMain_validated fmtg args ex mts (Or.inr hside) hm h0 hge
  rw [hside] at hrun
  have hfill := tradePhase_filled fmtg args.amount args.market_currency
    args.base_currency (market_name args.base_currency args.market_currency)
    args.warn_after ex b0 s0 bt st u hb hs hnot hsucc huuid hclosed
  refine ⟨?_, ?_, ?_, ?_, ?_, ?_, ?_, ?_, ?_,
    balances_report_filter fmtg ex.balances args.market_currency
      args.base_currency, ?_⟩
  · rw [hrun, hfill]
    simp [isPublishCall]
  · exact ⟨"order_side: ",
      "\n" ++ "amount: " ++ fmtg args.amount ++ " " ++ args.market_currency ++
        "\n" ++ "buy_rate: " ++ fmt8 b0.rate ++ " " ++ args.base_currency ++
        "\n" ++ "sell_rate: " ++ fmt8 s0.rate ++ " " ++ args.base_currency ++
        "\n" ++ "market_rate: " ++ fmt8 (market_rate_sell b0.rate s0.rate) ++
        " " ++ args.base_currency ++ "\n" ++ "TOTAL PROCEEDS: " ++
        fmt8 (total_proceeds (market_rate_sell b0.rate s0.rate)
          args.amount) ++ " " ++ args.base_currency ++ "\n" ++
        balances_report fmtg ex.balances args.market_currency
          args.base_currency,
      by simp only [report_text, String.append_assoc]⟩
  · exact ⟨"order_side: " ++ "sell" ++ "\n" ++ "amount: ",
      " " ++ args.market_currency ++
        "\n" ++ "buy_rate: " ++ fmt8 b0.rate ++ " " ++ args.base_currency ++
        "\n" ++ "sell_rate: " ++ fmt8 s0.rate ++ " " ++ args.base_currency ++
        "\n" ++ "market_rate: " ++ fmt8 (market_rate_sell b0.rate s0.rate) ++
        " " ++ args.base_currency ++ "\n" ++ "TOTAL PROCEEDS: " ++
        fmt8 (total_proceeds (market_rate_sell b0.rate s0.rate)
          args.amount) ++ " " ++ args.base_currency ++ "\n" ++
        balances_report fmtg ex.balances args.market_currency
          args.base_currency,
      by simp only [report_text, String.append_assoc]⟩
  · exact ⟨"order_side: " ++ "sell" ++ "\n" ++ "amount: " ++
        fmtg args.amount ++ " ",
      "\n" ++ "buy_rate: " ++ fmt8 b0.rate ++ " " ++ args.base_currency ++
        "\n" ++ "sell_rate: " ++ fmt8 s0.rate ++ " " ++ args.base_currency ++
        "\n" ++ "market_rate: " ++ fmt8 (market_rate_sell b0.rate s0.rate) ++
        " " ++ args.base_currency ++ "\n" ++ "TOTAL PROCEEDS: " ++
        fmt8 (total_proceeds (market_rate_sell b0.rate s0.rate)
          args.amount) ++ " " ++ args.base_currency ++ "\n" ++
        balances_report fmtg ex.balances args.market_currency
          args.base_currency,
      by simp only [report_text, String.append_assoc]⟩
  · exact ⟨"order_side: " ++ "sell" ++ "\n" ++ "amount: " ++
        fmtg args.amount ++ " " ++ args.market_currency ++ "\n" ++
        "buy_rate: ",
      " " ++ args.base_currency ++
        "\n" ++ "sell_rate: " ++ fmt8 s0.rate ++ " " ++ args.base_currency ++
        "\n" ++ "market_rate: " ++ fmt8 (market_rate_sell b0.rate s0.rate) ++
        " " ++ args.base_currency ++ "\n" ++ "TOTAL PROCEEDS: " ++
        fmt8 (total_proceeds (market_rate_sell b0.rate s0.rate)
          args.amount) ++ " " ++ args.base_currency ++ "\n" ++
        balances_report fmtg ex.balances args.market_currency
          args.base_currency,
      by simp only [report_text, String.append_assoc]⟩
  · exact ⟨"order_side: " ++ "sell" ++ "\n" ++ "amount: " ++
        fmtg args.amount ++ " " ++ args.market_currency ++ "\n" ++
        "buy_rate: " ++ fmt8 b0.rate ++ " " ++ args.base_currency ++ "\n" ++
        "sell_rate: ",
      " " ++ args.base_currency ++
        "\n" ++ "market_rate: " ++ fmt8 (market_rate_sell b0.rate s0.rate) ++
        " " ++ args.base_currency ++ "\n" ++ "TOTAL PROCEEDS: " ++
        fmt8 (total_proceeds (market_rate_sell b0.rate s0.rate)
          args.amount) ++ " " ++ args.base_currency ++ "\n" ++
        balances_report fmtg ex.balances args.market_currency
          args.base_currency,
      by simp only [report_text, String.append_assoc]⟩
  · exact ⟨"order_side: " ++ "sell" ++ "\n" ++ "amount: " ++
        fmtg args.amount ++ " " ++ args.market_currency ++ "\n" ++
        "buy_rate: " ++ fmt8 b0.rate ++ " " ++ args.base_currency ++ "\n" ++
        "sell_rate: " ++ fmt8 s0.rate ++ " " ++ args.base_currency ++ "\n" ++
        "market_rate: ",
      " " ++ args.base_currency ++ "\n" ++ "TOTAL PROCEEDS: " ++
        fmt8 (total_proceeds (market_rate_sell b0.rate s0.rate)
          args.amount) ++ " " ++ args.base_currency ++ "\n" ++
        balances_report fmtg ex.balances args.market_currency
          args.base_currency,
      by simp only [report_text, String.append_assoc]⟩
  · exact ⟨"order_side: " ++ "sell" ++ "\n" ++ "amount: " ++
        fmtg args.amount ++ " " ++ args.market_currency ++ "\n" ++
        "buy_rate: " ++ fmt8 b0.rate ++ " " ++ args.base_currency ++ "\n" ++
        "sell_rate: " ++ fmt8 s0.rate ++ " " ++ args.base_currency ++ "\n" ++
        "market_rate: " ++ fmt8 (market_rate_sell b0.rate s0.rate) ++ " " ++
        args.base_currency ++ "\n" ++ "TOTAL PROCEEDS: ",
      " " ++ args.base_currency ++ "\n" ++
        balances_report fmtg ex.balances args.market_currency
          args.base_currency,
      by simp only [report_text, String.append_assoc]⟩
  · exact ⟨report_text fmtg "sell" args.amount args.market_currency
      args.base_currency b0.rate s0.rate (market_rate_sell b0.rate s0.rate),
      rfl⟩
  · rw [hrun, hfill]

/-- C8 witness: the filled fixture publishes exactly the success report and
exits 0; the content conjuncts are instantiated at the fixture values. -/
theorem claim_C8_witness :
    (runMain fmtg0 args0 exFilled).1.filter isPublishCall =
      [Call.publish
        (sold_subject fmtg0 args0.amount "XLM" (market_rate_sell 2 2) "BTC")
        (report_text fmtg0 "sell" args0.amount "XLM" "BTC" 2 2
            (market_rate_sell 2 2) ++
          balances_report fmtg0 exFilled.balances "XLM" "BTC")] ∧
    (∃ p q, report_text fmtg0 "sell" args0.amount "XLM" "BTC" 2 2
        (market_rate_sell 2 2) ++
        balances_report fmtg0 exFilled.balances "XLM" "BTC" =
        p ++ "sell" ++ q) ∧
    (∃ p q, report_text fmtg0 "sell" args0.amount "XLM" "BTC" 2 2
        (market_rate_sell 2 2) ++
        balances_report fmtg0 exFilled.balances "XLM" "BTC" =
        p ++ fmtg0 args0.amount ++ q) ∧
    (∃ p q, report_text fmtg0 "sell" args0.amount "XLM" "BTC" 2 2
        (market_rate_sell 2 2) ++
        balances_report fmtg0 exFilled.balances "XLM" "BTC" =
        p ++ "XLM" ++ q) ∧
    (∃ p q, report_text fmtg0 "sell" args0.amount "XLM" "BTC" 2 2
        (market_rate_sell 2 2) ++
        balances_report fmtg0 exFilled.balances "XLM" "BTC" =
        p ++ fmt8 2 ++ q) ∧
    (∃ p q, report_text fmtg0 "sell" args0.amount "XLM" "BTC" 2 2
        (market_rate_sell 2 2) ++
        balances_report fmtg0 exFilled.balances "XLM" "BTC" =
        p ++ fmt8 2 ++ q) ∧
    (∃ p q, report_text fmtg0 "sell" args0.amount "XLM" "BTC" 2 2
        (market_rate_sell 2 2) ++
        balances_report fmtg0 exFilled.balances "XLM" "BTC" =
        p ++ fmt8 (market_rate_sell 2 2) ++ q) ∧
    (∃ p q, report_text fmtg0 "sell" args0.amount "XLM" "BTC" 2 2
        (market_rate_sell 2 2) ++
        balances_report fmtg0 exFilled.balances "XLM" "BTC" =
        p ++ fmt8 (total_proceeds (market_rate_sell 2 2) args0.amount) ++ q) ∧
    (∃ p, report_text fmtg0 "sell" args0.amount "XLM" "BTC" 2 2
        (market_rate_sell 2 2) ++
        balances_report fmtg0 exFilled.balances "XLM" "BTC" =
        p ++ balances_report fmtg0 exFilled.balances "XLM" "BTC") ∧
    balances_report fmtg0 exFilled.balances "XLM" "BTC" =
      balances_report fmtg0
        (exFilled.balances.filter fun b => b.currency = "XLM" ||
          b.currency = "BTC") "XLM" "BTC" ∧
    (runMain fmtg0 args0 exFilled).2 = .exit0 :=
  claim_C8 fmtg0 args0 exFilled 1 ⟨1, 2⟩ ⟨1, 2⟩ [] [] "u1" (by decide)
    markets0_find (by norm_num) (by norm_num [args0]) rfl rfl hnot_fixture
    rfl rfl rfl

set_option maxRecDepth 4000 in
lemma ilog2_quarter : ilog2 (1 / 4 : ℚ) = -2 := by
  unfold ilog2
  have h : (⌊(1 / 4 : ℚ) * 2 ^ 200⌋) =
      401734511064747568885490523085290650630550748445698208825344 := by
    norm_num
  rw [h]
  decide

lemma parse_amount_quarter : parse_amount (1 / 4 : ℚ) = 1 / 4 := by
  unfold parse_amount floatOfRat
  rw [if_neg (by norm_num : ¬ (1 / 4 : ℚ) = 0)]
  have habs : |(1 / 4 : ℚ)| = 1 / 4 := by
    rw [abs_of_pos]
    norm_num
  rw [habs, ilog2_quarter]
  rw [if_neg (by norm_num : ¬ (1 / 4 : ℚ) < 0)]
  rw [show ((52 : ℤ) - (-2)) = 54 by norm_num]
  have harg : (1 / 4 : ℚ) * 2 ^ (54 : ℤ) = 4503599627370496 := by
    norm_num
  rw [harg]
  have hr : rhe (4503599627370496 : ℚ) = 4503599627370496 := by
    unfold rhe
    norm_num
  rw [hr]
  norm_num

/-- C3 counterexample: the amount is parsed with `type=float` (line 23), so
the value the program computes with is the binary64 nearest the written
amount, not the written decimal itself.  For the written amount `0.1` the
parsed value is `7205759403792794 / 2 ^ 56 ≠ 1 / 10`, and consequently the
net-proceeds value of line 194 at market rate 2 differs from the exact
decimal product `2 * 0.1 * 0.9975` the claim requires. -/
theorem claim_C3_cex :
    parse_amount (1 / 10) ≠ (1 / 10 : ℚ) ∧
    total_proceeds 2 (parse_amount (1 / 10)) ≠
      2 * (1 / 10) * (9975 / 10000) := by
  rw [parse_amount_tenth]
  constructor
  · norm_num
  · unfold total_proceeds
    norm_num

/-- A market listing holding the XLM-BTC pair with minimum trade size
`1/100`, small enough for fractional witness amounts. -/
def marketsSmall : List MarketEntry := [⟨"XLM", "BTC", 1 / 100⟩]

/-- Exchange oracle over `marketsSmall` whose order closes immediately. -/
def exSmall : Exchange :=
  ⟨marketsSmall, [], book0, ⟨true, "", some "u1"⟩, fun _ => ⟨true, "p"⟩⟩

/-- Arguments whose amount is the float-parsed value of the written `0.25`. -/
def argsC3 : Args := ⟨"SELL", parse_amount (1 / 4), "XLM", "BTC", 3600⟩

lemma marketsSmall_find :
    find_min_trade_size marketsSmall "XLM" "BTC" = some (1 / 100) := by
  simp [marketsSmall, find_min_trade_size]

/-- C3 amended: the arithmetic after argument parsing is exact decimal
(`Decimal` end to end, modelled here by `ℚ`), and the run is a pure function
of its inputs, so repeated runs with the same inputs agree; but the amount is
converted through a binary float at the CLI boundary (`type=float`, line 23),
so the reported net proceeds equal
`marketRate * parse_amount w * 0.9975` for the written amount `w` — the
exact decimal product of the parsed float value, not of the amount as
written (they differ for example at `w = 0.1`). -/
theorem claim_C3_amended (fmtg : ℚ → String) (w : ℚ) (args : Args)
    (ex : Exchange) (mts : ℚ) (b0 s0 : ObEntry) (bt st : List ObEntry)
    (u : String)
    (ham : args.amount = parse_amount w)
    (hside : lowerStr args.order_side = "sell")
    (hm : find_min_trade_size ex.markets args.market_currency
        args.base_currency = some mts)
    (h0 : ¬ mts = 0) (hge : ¬ args.amount < mts)
    (hb : ex.book.buy = b0 :: bt) (hs : ex.book.sell = s0 :: st)
    (hnot : ¬ market_rate_sell b0.rate s0.rate * args.amount < 5 / 10000)
    (hsucc : ex.sellResp.success = true) (huuid : ex.sellResp.uuid = some u)
    (hclosed : (ex.orders 0).closed = true) :
    (runMain fmtg args ex).1.filter isPublishCall =
      [Call.publish
        (sold_subject fmtg (parse_amount w) args.market_currency
          (market_rate_sell b0.rate s0.rate) args.base_currency)
        (report_text fmtg "sell" (parse_amount w) args.market_currency
            args.base_currency b0.rate s0.rate
            (market_rate_sell b0.rate s0.rate) ++
          balances_report fmtg ex.balances args.market_currency
            args.base_currency)] ∧
    (∃ p q, report_text fmtg "sell" (parse_amount w) args.market_currency
        args.base_currency b0.rate s0.rate
        (market_rate_sell b0.rate s0.rate) ++
        balances_report fmtg ex.balances args.market_currency
          args.base_currency =
        p ++ fmt8 (total_proceeds (market_rate_sell b0.rate s0.rate)
          (parse_amount w)) ++ q) := by
  have hrun := runMain_validated fmtg args ex mts (Or.inr hside) hm h0 hge
  rw [hside] at hrun
  have hfill := tradePhase_filled fmtg args.amount args.market_currency
    args.base_currency (market_name args.base_currency args.market_currency)
    args.warn_after ex b0 s0 bt st u hb hs hnot hsucc huuid hclosed
  constructor
  · rw [hrun, hfill, ham]
    simp [isPublishCall]
  · exact ⟨"order_side: " ++ "sell" ++ "\n" ++ "amount: " ++
        fmtg (parse_amount w) ++ " " ++ args.market_currency ++ "\n" ++
        "buy_rate: " ++ fmt8 b0.rate ++ " " ++ args.base_currency ++ "\n" ++
        "sell_rate: " ++ fmt8 s0.rate ++ " " ++ args.base_currency ++ "\n" ++
        "market_rate: " ++ fmt8 (market_rate_sell b0.rate s0.rate) ++ " " ++
        args.base_currency ++ "\n" ++ "TOTAL PROCEEDS: ",
      " " ++ args.base_currency ++ "\n" ++
        balances_report fmtg ex.balances args.market_currency
          args.base_currency,
      by simp only [report_text, String.append_assoc]⟩

/-- C3 amended witness: a run whose amount is the parsed float of the
written `0.25` publishes the report whose proceeds are computed from the
parsed value. -/
theorem claim_C3_amended_witness :
    (runMain fmtg0 argsC3 exSmall).1.filter isPublishCall =
      [Call.publish
        (sold_subject fmtg0 (parse_amount (1 / 4)) "XLM"
          (market_rate_sell 2 2) "BTC")
        (report_text fmtg0 "sell" (parse_amount (1 / 4)) "XLM" "BTC" 2 2
            (market_rate_sell 2 2) ++
          balances_report fmtg0 exSmall.balances "XLM" "BTC")] ∧
    (∃ p q, report_text fmtg0 "sell" (parse_amount (1 / 4)) "XLM" "BTC" 2 2
        (market_rate_sell 2 2) ++
        balances_report fmtg0 exSmall.balances "XLM" "BTC" =
        p ++ fmt8 (total_proceeds (market_rate_sell 2 2)
          (parse_amount (1 / 4))) ++ q) :=
  claim_C3_amended fmtg0 (1 / 4) argsC3 exSmall (1 / 100) ⟨1, 2⟩ ⟨1, 2⟩ [] []
    "u1" rfl (by decide) marketsSmall_find (by norm_num)
    (by
      show ¬ parse_amount (1 / 4) < 1 / 100
      rw [parse_amount_quarter]
      norm_num)
    rfl rfl
    (by
      show ¬ market_rate_sell (2 : ℚ) 2 * parse_amount (1 / 4) < 5 / 10000
      rw [market_rate_sell_self, parse_amount_quarter]
      norm_num)
    rfl rfl rfl

end BittrexBot
